import Mathlib

set_option maxHeartbeats 1000000

namespace SkynetStart

/-!
Shallow embedding of `skynet-src/skynet_start.c`, the thread-pool scheduler
of the skynet runtime.

The four thread roles (`_worker`, `_timer`, `_socket`, `_monitor`) are
modelled as a small-step transition system over an explicit shared state
mirroring `struct monitor` (fields `count`, `sleep`, the mutex, the condition
variable's wait set) plus one program counter per thread.  The external
collaborators (`skynet_context_message_dispatch`, `skynet_context_total`,
`skynet_socket_poll`, `pthread_mutex_lock` success) are nondeterministic
inputs carried by the actions.  Every access of the shared `sleep` counter is
recorded in an event log together with whether the accessing thread held the
mutex at that moment, so locking discipline is observable.  `exit(1)` is
modelled by a `halted` flag that disables every further step.

The straight-line orchestrator `_start`, together with `create_thread` and
`free_monitor`, is modelled separately as a trace-producing function whose
events record allocation, spawning, joining and teardown order.
-/

/-- Thread identities: the timer, socket and monitor (watchdog) threads, and
the worker threads indexed by id. -/
inductive Tid where
  | timer
  | socket
  | monitor
  | worker (i : Nat)
deriving DecidableEq

/-- Observable events of the running pool.  `sleepRead`/`sleepWrite` record
an access of `m->sleep` and whether the accessing thread held `m->mutex`;
`signal`/`broadcast` are the condition-variable operations; `socketExit` is
the call of `skynet_socket_exit`; `checkDetector i` is
`skynet_monitor_check(m->m[i])`; `monSleep` is one `sleep(1)` of the
monitor thread; `exitProcess` is `exit(1)`. -/
inductive Ev where
  | sleepRead (t : Tid) (locked : Bool)
  | sleepWrite (t : Tid) (locked : Bool)
  | signal
  | broadcast
  | socketExit
  | checkDetector (i : Nat)
  | monSleep
  | exitProcess (msg : String)
deriving DecidableEq

/-- Program counter of a worker thread (`_worker`).  Each value names the
statement the thread is about to execute: `wDispatch` the call of
`skynet_context_message_dispatch`, `wCheck` the `CHECK_ABORT`, `wLock` the
`pthread_mutex_lock`, `wInc` the `++m->sleep` followed by the wait entry,
`wBlocked` waiting inside `pthread_cond_wait`, `wWoken` signalled and about
to reacquire the mutex, `wDec` the `--m->sleep`, `wUnlock` the
`pthread_mutex_unlock`, `wDone` the `break` was taken, `wCrash` the process
exited on unlock failure. -/
inductive WPc where
  | wDispatch
  | wCheck
  | wLock
  | wInc
  | wBlocked
  | wWoken
  | wDec
  | wUnlock
  | wDone
  | wCrash
deriving DecidableEq

/-- Program counter of the timer thread (`_timer`). -/
inductive TimerPc where
  | tUpdate
  | tCheck
  | tWakeup
  | tSleep
  | tExitSocket
  | tBroadcast
  | tDone
deriving DecidableEq

/-- Program counter of the socket thread (`_socket`). -/
inductive SocketPc where
  | sPoll
  | sCheck
  | sWakeup
  | sDone
deriving DecidableEq

/-- Program counter of the monitor (watchdog) thread (`_monitor`).
`mScan i` is about to check detector `i` (or leave the scan loop when
`i = count`); `mSleepCheck j` is the `CHECK_ABORT` before the `j`-th
`sleep(1)`; `mSleep j` is the `j`-th `sleep(1)` itself. -/
inductive MonPc where
  | mCheck
  | mScan (i : Nat)
  | mSleepCheck (j : Nat)
  | mSleep (j : Nat)
  | mDone
deriving DecidableEq

/-- The shared scheduler state.  `count` and `sleep` are the fields of
`struct monitor`; `mutexOwner` models `m->mutex` (`none` = unlocked);
`waiting` is the set of worker ids blocked in `pthread_cond_wait` on
`m->cond`; the remaining fields are the per-thread program counters, the
event log and the process-exit flag. -/
structure SysState where
  count : Nat
  sleep : Int
  mutexOwner : Option Tid
  waiting : List Nat
  workers : Nat → WPc
  timer : TimerPc
  socket : SocketPc
  monitor : MonPc
  log : List Ev
  halted : Bool

/-- One scheduler step together with the nondeterministic inputs it consumes:
dispatch results (`noWork`), `skynet_context_total()` readings (`total`),
`skynet_socket_poll()` results (`r`), `pthread_mutex_lock`/`unlock` outcomes
(`ok`), and the worker a `pthread_cond_signal` happens to wake (`target`,
`none` when nobody is woken). -/
inductive Action where
  | workerDispatch (i : Nat) (noWork : Bool)
  | workerCheck (i : Nat) (total : Nat)
  | workerLock (i : Nat) (ok : Bool)
  | workerSleepEnter (i : Nat)
  | workerSpurious (i : Nat)
  | workerReacquire (i : Nat)
  | workerDec (i : Nat)
  | workerUnlock (i : Nat) (ok : Bool)
  | timerUpdate
  | timerCheck (total : Nat)
  | timerWakeup (target : Option Nat)
  | timerSleep
  | timerSocketExit
  | timerBroadcast
  | socketPoll (r : Int)
  | socketCheck (total : Nat)
  | socketWakeup (target : Option Nat)
  | monitorCheck (total : Nat)
  | monitorScan
  | monitorSleepCheck (total : Nat)
  | monitorSleep
deriving DecidableEq

/-- Guard of the wakeup heuristic, from `wakeup` in `skynet_start.c`:
`m->sleep >= m->count - busy`. -/
def wakeup_signals (count sleep busy : Int) : Bool :=
  decide (count - busy ≤ sleep)

/-- Embeds the `wakeup` function of `skynet_start.c` as called by thread
`t` with allowance `busy`: it reads `m->sleep` (without taking the mutex;
the event records whether the caller happened to hold it) and calls
`pthread_cond_signal` only when `wakeup_signals` holds.  `target` resolves
the nondeterminism of the signal: `some j` wakes the waiting worker `j`,
`none` wakes nobody (only allowed when no signal is sent or nobody waits).
`none` as overall result marks an action that is not enabled. -/
def wakeup (s : SysState) (t : Tid) (busy : Int) (target : Option Nat) :
    Option SysState :=
  let ev := Ev.sleepRead t (decide (s.mutexOwner = some t))
  if wakeup_signals (s.count : Int) s.sleep busy then
    match target with
    | some j =>
        if j ∈ s.waiting then
          some { s with waiting := s.waiting.erase j,
                        workers := Function.update s.workers j WPc.wWoken,
                        log := s.log ++ [ev, Ev.signal] }
        else none
    | none =>
        if s.waiting.isEmpty then some { s with log := s.log ++ [ev, Ev.signal] }
        else none
  else
    match target with
    | some _ => none
    | none => some { s with log := s.log ++ [ev] }

/-- The effect of `pthread_cond_broadcast`: every waiting worker is woken. -/
def wakeAll (w : Nat → WPc) : List Nat → (Nat → WPc)
  | [] => w
  | i :: rest => Function.update (wakeAll w rest) i WPc.wWoken

/-- The small-step transition function.  `none` means the action is not
enabled in the given state (wrong program counter, mutex held by someone
else, invalid signal target, or the process has exited). -/
def step (s : SysState) (a : Action) : Option SysState :=
  if s.halted then none
  else
    match a with
    | Action.workerDispatch i noWork =>
        if i < s.count ∧ s.workers i = WPc.wDispatch then
          if noWork then
            some { s with workers := Function.update s.workers i WPc.wCheck }
          else some s
        else none
    | Action.workerCheck i total =>
        if i < s.count ∧ s.workers i = WPc.wCheck then
          if total = 0 then
            some { s with workers := Function.update s.workers i WPc.wDone }
          else some { s with workers := Function.update s.workers i WPc.wLock }
        else none
    | Action.workerLock i ok =>
        if i < s.count ∧ s.workers i = WPc.wLock then
          if ok then
            if s.mutexOwner = none then
              some { s with mutexOwner := some (Tid.worker i),
                            workers := Function.update s.workers i WPc.wInc }
            else none
          else some { s with workers := Function.update s.workers i WPc.wDispatch }
        else none
    | Action.workerSleepEnter i =>
        if i < s.count ∧ s.workers i = WPc.wInc ∧
            s.mutexOwner = some (Tid.worker i) then
          some { s with
            sleep := s.sleep + 1,
            mutexOwner := none,
            waiting := i :: s.waiting,
            workers := Function.update s.workers i WPc.wBlocked,
            log := s.log ++
              [Ev.sleepWrite (Tid.worker i)
                (decide (s.mutexOwner = some (Tid.worker i)))] }
        else none
    | Action.workerSpurious i =>
        if i < s.count ∧ s.workers i = WPc.wBlocked ∧ i ∈ s.waiting then
          some { s with waiting := s.waiting.erase i,
                        workers := Function.update s.workers i WPc.wWoken }
        else none
    | Action.workerReacquire i =>
        if i < s.count ∧ s.workers i = WPc.wWoken ∧ s.mutexOwner = none then
          some { s with mutexOwner := some (Tid.worker i),
                        workers := Function.update s.workers i WPc.wDec }
        else none
    | Action.workerDec i =>
        if i < s.count ∧ s.workers i = WPc.wDec ∧
            s.mutexOwner = some (Tid.worker i) then
          some { s with
            sleep := s.sleep - 1,
            workers := Function.update s.workers i WPc.wUnlock,
            log := s.log ++
              [Ev.sleepWrite (Tid.worker i)
                (decide (s.mutexOwner = some (Tid.worker i)))] }
        else none
    | Action.workerUnlock i ok =>
        if i < s.count ∧ s.workers i = WPc.wUnlock ∧
            s.mutexOwner = some (Tid.worker i) then
          if ok then
            some { s with mutexOwner := none,
                          workers := Function.update s.workers i WPc.wDispatch }
          else
            some { s with workers := Function.update s.workers i WPc.wCrash,
                          log := s.log ++ [Ev.exitProcess ("unlock mutex error")],
                          halted := true }
        else none
    | Action.timerUpdate =>
        if s.timer = TimerPc.tUpdate then some { s with timer := TimerPc.tCheck }
        else none
    | Action.timerCheck total =>
        if s.timer = TimerPc.tCheck then
          if total = 0 then some { s with timer := TimerPc.tExitSocket }
          else some { s with timer := TimerPc.tWakeup }
        else none
    | Action.timerWakeup target =>
        if s.timer = TimerPc.tWakeup then
          (wakeup s Tid.timer ((s.count : Int) - 1) target).map
            (fun s2 => { s2 with timer := TimerPc.tSleep })
        else none
    | Action.timerSleep =>
        if s.timer = TimerPc.tSleep then some { s with timer := TimerPc.tUpdate }
        else none
    | Action.timerSocketExit =>
        if s.timer = TimerPc.tExitSocket then
          some { s with timer := TimerPc.tBroadcast,
                        log := s.log ++ [Ev.socketExit] }
        else none
    | Action.timerBroadcast =>
        if s.timer = TimerPc.tBroadcast then
          some { s with timer := TimerPc.tDone,
                        waiting := [],
                        workers := wakeAll s.workers s.waiting,
                        log := s.log ++ [Ev.broadcast] }
        else none
    | Action.socketPoll r =>
        if s.socket = SocketPc.sPoll then
          if r = 0 then some { s with socket := SocketPc.sDone }
          else if r < 0 then some { s with socket := SocketPc.sCheck }
          else some { s with socket := SocketPc.sWakeup }
        else none
    | Action.socketCheck total =>
        if s.socket = SocketPc.sCheck then
          if total = 0 then some { s with socket := SocketPc.sDone }
          else some { s with socket := SocketPc.sPoll }
        else none
    | Action.socketWakeup target =>
        if s.socket = SocketPc.sWakeup then
          (wakeup s Tid.socket 0 target).map
            (fun s2 => { s2 with socket := SocketPc.sPoll })
        else none
    | Action.monitorCheck total =>
        if s.monitor = MonPc.mCheck then
          if total = 0 then some { s with monitor := MonPc.mDone }
          else some { s with monitor := MonPc.mScan 0 }
        else none
    | Action.monitorScan =>
        match s.monitor with
        | MonPc.mScan i =>
            if i < s.count then
              some { s with monitor := MonPc.mScan (i + 1),
                            log := s.log ++ [Ev.checkDetector i] }
            else some { s with monitor := MonPc.mSleepCheck 0 }
        | _ => none
    | Action.monitorSleepCheck total =>
        match s.monitor with
        | MonPc.mSleepCheck j =>
            if total = 0 then some { s with monitor := MonPc.mDone }
            else some { s with monitor := MonPc.mSleep j }
        | _ => none
    | Action.monitorSleep =>
        match s.monitor with
        | MonPc.mSleep j =>
            if j + 1 < 5 then
              some { s with monitor := MonPc.mSleepCheck (j + 1),
                            log := s.log ++ [Ev.monSleep] }
            else
              some { s with monitor := MonPc.mCheck,
                            log := s.log ++ [Ev.monSleep] }
        | _ => none

/-- The state `_start` hands to the spawned threads: `m->sleep = 0`, mutex
free, nobody waiting, every thread at the top of its loop. -/
def init (count : Nat) : SysState :=
  { count := count
    sleep := 0
    mutexOwner := none
    waiting := []
    workers := fun _ => WPc.wDispatch
    timer := TimerPc.tUpdate
    socket := SocketPc.sPoll
    monitor := MonPc.mCheck
    log := []
    halted := false }

/-- Runs a list of actions from a state; `none` when some action on the way
is not enabled. -/
def run (s : SysState) : List Action → Option SysState
  | [] => some s
  | a :: rest => (step s a).bind (fun s2 => run s2 rest)

/-- The role a created thread plays, in the order `_start` creates them. -/
inductive Role where
  | watchdog
  | timer
  | socket
  | worker (i : Nat)
deriving DecidableEq

/-- Events of the orchestrator `_start` and of `free_monitor`:
`newDetector i` is `skynet_monitor_new()` for worker `i`; `spawn` is a
successful `pthread_create`; `join k` is `pthread_join(pid[k])`;
`delDetector i` is `skynet_monitor_delete(m->m[i])`; the remaining events
are the teardown of the mutex, the condition variable, the detector array
and the monitor structure itself. -/
inductive SEv where
  | newDetector (i : Nat)
  | spawn (r : Role)
  | join (k : Nat)
  | delDetector (i : Nat)
  | destroyMutex
  | destroyCond
  | freeDetArray
  | freeSelf
deriving DecidableEq

/-- Embeds `create_thread` of `skynet_start.c`: on `pthread_create` failure
the process prints a diagnostic and exits (the `error` result carries the
trace so far and the message); otherwise the spawn is recorded. -/
def create_thread (fail : Bool) (r : Role) (tr : List SEv) :
    Except (List SEv × String) (List SEv) :=
  if fail then Except.error (tr, "Create thread failed")
  else Except.ok (tr ++ [SEv.spawn r])

/-- The sequence of `create_thread` calls of `_start`: `sf k` tells whether
the `k`-th `pthread_create` (in program order) fails. -/
def spawnThreads (sf : Nat → Bool) (k : Nat) (roles : List Role)
    (tr : List SEv) : Except (List SEv × String) (List SEv) :=
  match roles with
  | [] => Except.ok tr
  | r :: rest =>
      match create_thread (sf k) r tr with
      | Except.error e => Except.error e
      | Except.ok tr2 => spawnThreads sf (k + 1) rest tr2

/-- The roles `_start` creates, in program order: `_monitor` (the watchdog),
`_timer`, `_socket`, then the `thread` workers. -/
def startRoles (thread : Nat) : List Role :=
  [Role.watchdog, Role.timer, Role.socket] ++ (List.range thread).map Role.worker

/-- Embeds `free_monitor`: delete every detector in index order, destroy the
mutex and the condition variable, free the detector array and the monitor
structure. -/
def free_monitor (n : Nat) : List SEv :=
  (List.range n).map SEv.delDetector ++
    [SEv.destroyMutex, SEv.destroyCond, SEv.freeDetArray, SEv.freeSelf]

/-- Embeds `_start`: allocate the monitor structure with `thread` detectors,
initialize the mutex and the condition variable (process exit on failure),
spawn the `thread + 3` threads, join all of them, then `free_monitor`.
`mutexFail`/`condFail`/`sf` are the environment's failure inputs. -/
def start (thread : Nat) (mutexFail condFail : Bool) (sf : Nat → Bool) :
    Except (List SEv × String) (List SEv) :=
  let tr := (List.range thread).map SEv.newDetector
  if mutexFail then Except.error (tr, "Init mutex error")
  else if condFail then Except.error (tr, "Init cond error")
  else
    match spawnThreads sf 0 (startRoles thread) tr with
    | Except.error e => Except.error e
    | Except.ok tr2 =>
        Except.ok (tr2 ++ (List.range (thread + 3)).map SEv.join ++
          free_monitor thread)

/-- The trace of a failure-free `_start` up to the join of the last thread:
detector creation, spawns, joins. -/
def startPre (n : Nat) : List SEv :=
  (List.range n).map SEv.newDetector ++ (startRoles n).map SEv.spawn ++
    (List.range (n + 3)).map SEv.join

/-- The full trace of a failure-free `_start`. -/
def okTrace (n : Nat) : List SEv := startPre n ++ free_monitor n

/-- Recognizes a spawn event. -/
def isSpawn : SEv → Bool
  | SEv.spawn _ => true
  | _ => false

/-- Recognizes a join event. -/
def isJoin : SEv → Bool
  | SEv.join _ => true
  | _ => false

/-- Recognizes a detector-creation event. -/
def isNewDetector : SEv → Bool
  | SEv.newDetector _ => true
  | _ => false

/-- Recognizes a teardown event of `free_monitor` (releasing
SchedulerState). -/
def isRelease : SEv → Bool
  | SEv.delDetector _ => true
  | SEv.destroyMutex => true
  | SEv.destroyCond => true
  | SEv.freeDetArray => true
  | SEv.freeSelf => true
  | _ => false

/-- True on the worker program counters between the `++m->sleep` and the
`--m->sleep`, i.e. on the workers currently counted by `m->sleep`. -/
def inSleepRegion : WPc → Bool
  | WPc.wBlocked => true
  | WPc.wWoken => true
  | WPc.wDec => true
  | _ => false

/-- Number of workers with id below `n` whose program counter lies in the
sleep region. -/
def countRegion (w : Nat → WPc) : Nat → Nat
  | 0 => 0
  | Nat.succ m => countRegion w m + (if inSleepRegion (w m) then 1 else 0)

/-- A write of `m->sleep` that happened while holding the mutex (true on
every other event). -/
def writeLocked : Ev → Bool
  | Ev.sleepWrite _ locked => locked
  | _ => true

/-- A read of `m->sleep` that happened without holding the mutex (true on
every other event). -/
def readUnlocked : Ev → Bool
  | Ev.sleepRead _ locked => !locked
  | _ => true

/-- An access of `m->sleep` that happened while holding the mutex (true on
every other event).  This is the locking discipline the specification
asserts for `sleepingCount`. -/
def accessLocked : Ev → Bool
  | Ev.sleepRead _ locked => locked
  | Ev.sleepWrite _ locked => locked
  | _ => true

/-- The locking discipline the code actually follows: writes hold the
mutex, the wakeup heuristic's reads do not. -/
def evOk (e : Ev) : Bool := writeLocked e && readUnlocked e

/-- True when every `broadcast` event in the list is preceded by a
`socketExit` event (`seen` tells whether one was already emitted). -/
def exitBeforeBroadcast (seen : Bool) : List Ev → Bool
  | [] => true
  | Ev.broadcast :: rest => seen && exitBeforeBroadcast seen rest
  | Ev.socketExit :: rest => exitBeforeBroadcast true rest
  | _ :: rest => exitBeforeBroadcast seen rest

/-- Whether a `socketExit` is already in the list (continuation of the
`seen` flag of `exitBeforeBroadcast`). -/
def seenExit (b : Bool) (l : List Ev) : Bool :=
  b || l.any (fun e => decide (e = Ev.socketExit))

/-- The mutex is either free or held by a worker thread: the timer, socket
and monitor threads never take it. -/
def ownerIsWorker : Option Tid → Prop
  | none => True
  | some (Tid.worker _) => True
  | some _ => False

/-- The inductive invariant of the transition system: `m->sleep` equals the
number of workers in the sleep region (hence the bounds of C5); waiting
workers are blocked, distinct and in range; the mutex is only ever held by
a worker; writes of `m->sleep` happen under the mutex and the heuristic's
reads happen outside it; every broadcast is preceded by the socket exit,
which has happened once the timer reaches its broadcast statement. -/
def MasterInv (s : SysState) : Prop :=
  s.sleep = (countRegion s.workers s.count : Int) ∧
  (∀ i ∈ s.waiting, s.workers i = WPc.wBlocked ∧ i < s.count) ∧
  s.waiting.Nodup ∧
  ownerIsWorker s.mutexOwner ∧
  s.log.all evOk = true ∧
  exitBeforeBroadcast false s.log = true ∧
  ((s.timer = TimerPc.tBroadcast ∨ s.timer = TimerPc.tDone) →
    Ev.socketExit ∈ s.log)

/-- Trace reaching a state of a 2-worker pool where worker 0 sleeps
(`m->sleep = 1`) and the socket thread is about to call `wakeup(m, 0)`. -/
def c1cexTrace : List Action :=
  [Action.workerDispatch 0 true, Action.workerCheck 0 1,
   Action.workerLock 0 true, Action.workerSleepEnter 0, Action.socketPoll 1]

/-- The state reached by `c1cexTrace` from a 2-worker pool. -/
def c1cexState : SysState := (run (init 2) c1cexTrace).getD (init 2)

/-- The state reached by `c1cexTrace` from a 1-worker pool: there
`m->sleep = 1 = m->count`, so the network wakeup does signal. -/
def c1okState : SysState := (run (init 1) c1cexTrace).getD (init 1)

/-- Trace of the socket thread seeing network activity and calling
`wakeup(m, 0)` with nobody asleep: the read of `m->sleep` happens without
the mutex. -/
def c2cexTrace : List Action := [Action.socketPoll 1, Action.socketWakeup none]

/-- Trace of a 1-worker pool where the worker goes to sleep (a locked write
of `m->sleep`) and the socket thread then signals it (an unlocked read). -/
def c2wTrace : List Action :=
  [Action.workerDispatch 0 true, Action.workerCheck 0 1,
   Action.workerLock 0 true, Action.workerSleepEnter 0,
   Action.socketPoll 1, Action.socketWakeup (some 0)]

/-- The state reached by `c2wTrace` from a 1-worker pool. -/
def c2wState : SysState := (run (init 1) c2wTrace).getD (init 1)

/-- Trace of the timer thread observing zero live services and running its
shutdown sequence: `skynet_socket_exit()` then the broadcast. -/
def c3wTrace : List Action :=
  [Action.timerUpdate, Action.timerCheck 0, Action.timerSocketExit,
   Action.timerBroadcast]

/-- The state reached by `c3wTrace` from a 1-worker pool. -/
def c3wState : SysState := (run (init 1) c3wTrace).getD (init 1)

/-- Trace of a worker of a 3-worker pool going to sleep. -/
def c5wTrace : List Action :=
  [Action.workerDispatch 0 true, Action.workerCheck 0 1,
   Action.workerLock 0 true, Action.workerSleepEnter 0]

/-- The state reached by `c5wTrace` from a 3-worker pool. -/
def c5wState : SysState := (run (init 3) c5wTrace).getD (init 3)

/-- A state whose socket thread is about to call `wakeup(m, 0)`. -/
def c6sState : SysState := (run (init 1) [Action.socketPoll 1]).getD (init 1)

/-- A state whose timer thread is about to call `wakeup(m, m->count - 1)`. -/
def c6tState : SysState :=
  (run (init 1) [Action.timerUpdate, Action.timerCheck 1]).getD (init 1)

/-- Trace of a 1-worker pool whose worker sleeps, wakes spuriously and is
about to call `pthread_mutex_unlock` after decrementing `m->sleep`. -/
def unlockReadyTrace : List Action :=
  [Action.workerDispatch 0 true, Action.workerCheck 0 1,
   Action.workerLock 0 true, Action.workerSleepEnter 0,
   Action.workerSpurious 0, Action.workerReacquire 0, Action.workerDec 0]

/-- The state reached by `unlockReadyTrace` from a 1-worker pool. -/
def unlockReadyState : SysState :=
  (run (init 1) unlockReadyTrace).getD (init 1)

/-- A state whose worker 0 is about to call `pthread_mutex_lock`. -/
def c10aState : SysState :=
  (run (init 1) [Action.workerDispatch 0 true, Action.workerCheck 0 1]).getD
    (init 1)

/-- A state whose monitor thread is about to scan the detectors. -/
def c9aState : SysState :=
  (run (init 1) [Action.monitorCheck 1]).getD (init 1)

/-- A state whose monitor thread is at the abort check before the first
`sleep(1)`. -/
def c9bState : SysState :=
  (run (init 1) [Action.monitorCheck 1, Action.monitorScan,
    Action.monitorScan]).getD (init 1)

/-- A state whose monitor thread is about to execute the first `sleep(1)`. -/
def c9cState : SysState :=
  (run (init 1) [Action.monitorCheck 1, Action.monitorScan,
    Action.monitorScan, Action.monitorSleepCheck 1]).getD (init 1)

/-- A state whose monitor thread has exited its loop. -/
def c9dState : SysState :=
  (run (init 1) [Action.monitorCheck 0]).getD (init 1)

theorem countRegion_congr (w w2 : Nat → WPc) :
    ∀ m : Nat, (∀ j, j < m → w j = w2 j) → countRegion w m = countRegion w2 m := by
  intro m
  induction m with
  | zero => intro _; rfl
  | succ m ih =>
      intro h
      simp only [countRegion]
      rw [ih (fun j hj => h j (Nat.lt_succ_of_lt hj)), h m (Nat.lt_succ_self m)]

theorem countRegion_update_add (w : Nat → WPc) (p : WPc) (i : Nat) :
    ∀ m : Nat, i < m →
      countRegion (Function.update w i p) m +
        (if inSleepRegion (w i) then 1 else 0) =
      countRegion w m + (if inSleepRegion p then 1 else 0) := by
  intro m
  induction m with
  | zero => intro h; exact absurd h (Nat.not_lt_zero i)
  | succ m ih =>
      intro h
      simp only [countRegion]
      by_cases hi : i = m
      · subst hi
        have hrest : countRegion (Function.update w i p) i = countRegion w i := by
          apply countRegion_congr
          intro j hj
          exact Function.update_noteq (Nat.ne_of_lt hj) p w
        rw [hrest, Function.update_same]
        omega
      · have hlt : i < m := Nat.lt_of_le_of_ne (Nat.le_of_lt_succ h) hi
        have hm : Function.update w i p m = w m :=
          Function.update_noteq (fun hmi => hi hmi.symm) p w
        rw [hm]
        have := ih hlt
        omega

theorem countRegion_le (w : Nat → WPc) : ∀ m : Nat, countRegion w m ≤ m := by
  intro m
  induction m with
  | zero => exact Nat.le_refl 0
  | succ m ih =>
      simp only [countRegion]
      by_cases h : inSleepRegion (w m) <;> simp [h] <;> omega

theorem countRegion_const_dispatch (n : Nat) :
    countRegion (fun _ => WPc.wDispatch) n = 0 := by
  induction n with
  | zero => rfl
  | succ m ih => simp [countRegion, inSleepRegion, ih]

theorem wakeAll_not_mem (w : Nat → WPc) (i : Nat) :
    ∀ l : List Nat, i ∉ l → wakeAll w l i = w i := by
  intro l
  induction l with
  | nil => intro _; rfl
  | cons a rest ih =>
      intro h
      have hia : i ≠ a := fun hia => h (hia ▸ List.mem_cons_self a rest)
      simp only [wakeAll]
      rw [Function.update_noteq hia]
      exact ih (fun hm => h (List.mem_cons_of_mem a hm))

theorem wakeAll_mem (w : Nat → WPc) (i : Nat) :
    ∀ l : List Nat, i ∈ l → wakeAll w l i = WPc.wWoken := by
  intro l
  induction l with
  | nil => intro h; exact absurd h (List.not_mem_nil i)
  | cons a rest ih =>
      intro h
      simp only [wakeAll]
      by_cases hia : i = a
      · subst hia; exact Function.update_same i WPc.wWoken (wakeAll w rest)
      · rw [Function.update_noteq hia]
        exact ih (by
          rcases List.mem_cons.mp h with h1 | h1
          · exact absurd h1 hia
          · exact h1)

theorem wakeAll_countRegion (w : Nat → WPc) (m : Nat) :
    ∀ l : List Nat, (∀ i ∈ l, w i = WPc.wBlocked ∧ i < m) → l.Nodup →
      countRegion (wakeAll w l) m = countRegion w m := by
  intro l
  induction l with
  | nil => intro _ _; rfl
  | cons a rest ih =>
      intro h hnd
      have hna : a ∉ rest := (List.nodup_cons.mp hnd).1
      have hrest : countRegion (wakeAll w rest) m = countRegion w m :=
        ih (fun i hi => h i (List.mem_cons_of_mem a hi)) (List.nodup_cons.mp hnd).2
      have ha : wakeAll w rest a = w a := wakeAll_not_mem w a rest hna
      have hblocked : w a = WPc.wBlocked := (h a (List.mem_cons_self a rest)).1
      have halt : a < m := (h a (List.mem_cons_self a rest)).2
      have hadd := countRegion_update_add (wakeAll w rest) WPc.wWoken a m halt
      simp only [wakeAll]
      rw [ha, hblocked] at hadd
      simp [inSleepRegion] at hadd
      omega

theorem ebb_flag_true :
    ∀ l : List Ev, exitBeforeBroadcast true l = true →
      exitBeforeBroadcast true (l ++ [Ev.broadcast]) = true := by
  intro l
  induction l with
  | nil => intro _; simp [exitBeforeBroadcast]
  | cons e rest ih =>
      intro h
      cases e <;> simp only [exitBeforeBroadcast, List.cons_append,
        Bool.and_eq_true, true_and] at h ⊢ <;> exact ih h

theorem ebb_append_broadcast :
    ∀ l : List Ev, Ev.socketExit ∈ l → exitBeforeBroadcast false l = true →
      exitBeforeBroadcast false (l ++ [Ev.broadcast]) = true := by
  intro l
  induction l with
  | nil => intro h _; exact absurd h (List.not_mem_nil _)
  | cons e rest ih =>
      intro hmem h
      cases e with
      | broadcast => simp [exitBeforeBroadcast] at h
      | socketExit =>
          simp only [exitBeforeBroadcast, List.cons_append] at h ⊢
          exact ebb_flag_true rest h
      | sleepRead t locked =>
          simp only [exitBeforeBroadcast, List.cons_append] at h ⊢
          exact ih (by simpa using hmem) h
      | sleepWrite t locked =>
          simp only [exitBeforeBroadcast, List.cons_append] at h ⊢
          exact ih (by simpa using hmem) h
      | signal =>
          simp only [exitBeforeBroadcast, List.cons_append] at h ⊢
          exact ih (by simpa using hmem) h
      | checkDetector i =>
          simp only [exitBeforeBroadcast, List.cons_append] at h ⊢
          exact ih (by simpa using hmem) h
      | monSleep =>
          simp only [exitBeforeBroadcast, List.cons_append] at h ⊢
          exact ih (by simpa using hmem) h
      | exitProcess msg =>
          simp only [exitBeforeBroadcast, List.cons_append] at h ⊢
          exact ih (by simpa using hmem) h

theorem ebb_no_broadcast :
    ∀ (l : List Ev) (b : Bool), (∀ e ∈ l, e ≠ Ev.broadcast) →
      exitBeforeBroadcast b l = true := by
  intro l
  induction l with
  | nil => intro b _; rfl
  | cons e rest ih =>
      intro b h
      have hrest : ∀ e2 ∈ rest, e2 ≠ Ev.broadcast :=
        fun e2 he2 => h e2 (List.mem_cons_of_mem e he2)
      cases e with
      | broadcast => exact absurd rfl (h Ev.broadcast (List.mem_cons_self _ _))
      | socketExit => exact ih true hrest
      | sleepRead t locked => exact ih b hrest
      | sleepWrite t locked => exact ih b hrest
      | signal => exact ih b hrest
      | checkDetector i => exact ih b hrest
      | monSleep => exact ih b hrest
      | exitProcess msg => exact ih b hrest

theorem ebb_append_of_no_broadcast :
    ∀ (l l2 : List Ev) (b : Bool), exitBeforeBroadcast b l = true →
      (∀ e ∈ l2, e ≠ Ev.broadcast) →
      exitBeforeBroadcast b (l ++ l2) = true := by
  intro l
  induction l with
  | nil => intro l2 b _ h2; exact ebb_no_broadcast l2 b h2
  | cons e rest ih =>
      intro l2 b h h2
      cases e with
      | broadcast =>
          simp only [exitBeforeBroadcast, List.cons_append, Bool.and_eq_true] at h ⊢
          exact ⟨h.1, ih l2 b h.2 h2⟩
      | socketExit =>
          simp only [exitBeforeBroadcast, List.cons_append] at h ⊢
          exact ih l2 true h h2
      | sleepRead t locked =>
          simp only [exitBeforeBroadcast, List.cons_append] at h ⊢
          exact ih l2 b h h2
      | sleepWrite t locked =>
          simp only [exitBeforeBroadcast, List.cons_append] at h ⊢
          exact ih l2 b h h2
      | signal =>
          simp only [exitBeforeBroadcast, List.cons_append] at h ⊢
          exact ih l2 b h h2
      | checkDetector i =>
          simp only [exitBeforeBroadcast, List.cons_append] at h ⊢
          exact ih l2 b h h2
      | monSleep =>
          simp only [exitBeforeBroadcast, List.cons_append] at h ⊢
          exact ih l2 b h h2
      | exitProcess msg =>
          simp only [exitBeforeBroadcast, List.cons_append] at h ⊢
          exact ih l2 b h h2

theorem owner_reads_unlocked (o : Option Tid) (ho : ownerIsWorker o) :
    decide (o = some Tid.timer) = false ∧ decide (o = some Tid.socket) = false := by
  cases o with
  | none => simp
  | some t =>
      cases t with
      | worker i => simp
      | timer => exact False.elim ho
      | socket => exact False.elim ho
      | monitor => exact False.elim ho

theorem countRegion_update_eq (w : Nat → WPc) (p : WPc) (i m : Nat)
    (him : i < m) (hreg : inSleepRegion p = inSleepRegion (w i)) :
    countRegion (Function.update w i p) m = countRegion w m := by
  have h2 := countRegion_update_add w p i m him
  rw [hreg] at h2
  by_cases hb : inSleepRegion (w i) = true
  · rw [hb] at h2; simp at h2; omega
  · rw [Bool.not_eq_true] at hb
    rw [hb] at h2; simp at h2; omega

theorem waiting_update_of_not_mem {w : Nat → WPc} {l : List Nat} {c : Nat}
    (hwait : ∀ j ∈ l, w j = WPc.wBlocked ∧ j < c) {i : Nat} (hni : i ∉ l)
    (p : WPc) : ∀ j ∈ l, Function.update w i p j = WPc.wBlocked ∧ j < c := by
  intro j hj
  refine ⟨?_, (hwait j hj).2⟩
  rw [Function.update_noteq (fun hji : j = i => hni (hji ▸ hj)) p w]
  exact (hwait j hj).1

theorem not_mem_waiting {w : Nat → WPc} {l : List Nat} {c : Nat}
    (hwait : ∀ j ∈ l, w j = WPc.wBlocked ∧ j < c) {i : Nat}
    (hpc : w i ≠ WPc.wBlocked) : i ∉ l :=
  fun hmem => hpc (hwait i hmem).1

theorem all_evOk_append {l l2 : List Ev} (h : l.all evOk = true)
    (h2 : l2.all evOk = true) : (l ++ l2).all evOk = true := by
  simp only [List.all_append, Bool.and_eq_true]
  exact ⟨h, h2⟩

theorem no_broadcast_single {e1 : Ev} (h1 : e1 ≠ Ev.broadcast) :
    ∀ e ∈ [e1], e ≠ Ev.broadcast := by
  intro e he
  rcases List.mem_singleton.mp he with rfl
  exact h1

theorem no_broadcast_pair {e1 e2 : Ev} (h1 : e1 ≠ Ev.broadcast)
    (h2 : e2 ≠ Ev.broadcast) : ∀ e ∈ [e1, e2], e ≠ Ev.broadcast := by
  intro e he
  rcases List.mem_cons.mp he with rfl | he2
  · exact h1
  · rcases List.mem_singleton.mp he2 with rfl
    exact h2

theorem run_preserve (P : SysState → Prop)
    (hstep : ∀ s a s2, P s → step s a = some s2 → P s2) :
    ∀ (acts : List Action) (s s2 : SysState),
      P s → run s acts = some s2 → P s2 := by
  intro acts
  induction acts with
  | nil =>
      intro s s2 hP hrun
      simp only [run, Option.some.injEq] at hrun
      exact hrun ▸ hP
  | cons a rest ih =>
      intro s s2 hP hrun
      simp only [run] at hrun
      cases h1 : step s a with
      | none => rw [h1] at hrun; simp at hrun
      | some s1 =>
          rw [h1] at hrun
          simp only [Option.some_bind] at hrun
          exact ih s1 s2 (hstep s a s1 hP h1) hrun

theorem masterInv_step (s s2 : SysState) (a : Action)
    (hInv : MasterInv s) (hstep : step s a = some s2) : MasterInv s2 := by
  obtain ⟨hsleep, hwait, hnd, howner, hlog, hebb, htmr⟩ := hInv
  by_cases hh : s.halted = true
  · rw [step.eq_def] at hstep
    rw [if_pos hh] at hstep
    simp at hstep
  · cases a with
    | workerDispatch i noWork =>
        simp only [step] at hstep
        rw [if_neg hh] at hstep
        split at hstep
        · rename_i hcond
          obtain ⟨hi, hpc⟩ := hcond
          have hni : i ∉ s.waiting :=
            not_mem_waiting hwait (by rw [hpc]; intro hx; exact WPc.noConfusion hx)
          split at hstep
          · rw [Option.some.injEq] at hstep
            subst hstep
            refine ⟨?_, ?_, hnd, howner, hlog, hebb, htmr⟩
            · show s.sleep =
                (countRegion (Function.update s.workers i WPc.wCheck) s.count : Int)
              rw [countRegion_update_eq s.workers WPc.wCheck i s.count hi
                (by rw [hpc]; rfl)]
              exact hsleep
            · exact waiting_update_of_not_mem hwait hni WPc.wCheck
          · rw [Option.some.injEq] at hstep
            subst hstep
            exact ⟨hsleep, hwait, hnd, howner, hlog, hebb, htmr⟩
        · simp at hstep
    | workerCheck i total =>
        simp only [step] at hstep
        rw [if_neg hh] at hstep
        split at hstep
        · rename_i hcond
          obtain ⟨hi, hpc⟩ := hcond
          have hni : i ∉ s.waiting :=
            not_mem_waiting hwait (by rw [hpc]; intro hx; exact WPc.noConfusion hx)
          split at hstep <;>
            (rw [Option.some.injEq] at hstep; subst hstep)
          · refine ⟨?_, ?_, hnd, howner, hlog, hebb, htmr⟩
            · show s.sleep =
                (countRegion (Function.update s.workers i WPc.wDone) s.count : Int)
              rw [countRegion_update_eq s.workers WPc.wDone i s.count hi
                (by rw [hpc]; rfl)]
              exact hsleep
            · exact waiting_update_of_not_mem hwait hni WPc.wDone
          · refine ⟨?_, ?_, hnd, howner, hlog, hebb, htmr⟩
            · show s.sleep =
                (countRegion (Function.update s.workers i WPc.wLock) s.count : Int)
              rw [countRegion_update_eq s.workers WPc.wLock i s.count hi
                (by rw [hpc]; rfl)]
              exact hsleep
            · exact waiting_update_of_not_mem hwait hni WPc.wLock
        · simp at hstep
    | workerLock i ok =>
        simp only [step] at hstep
        rw [if_neg hh] at hstep
        split at hstep
        · rename_i hcond
          obtain ⟨hi, hpc⟩ := hcond
          have hni : i ∉ s.waiting :=
            not_mem_waiting hwait (by rw [hpc]; intro hx; exact WPc.noConfusion hx)
          split at hstep
          · split at hstep
            · rw [Option.some.injEq] at hstep
              subst hstep
              refine ⟨?_, ?_, hnd, trivial, hlog, hebb, htmr⟩
              · show s.sleep =
                  (countRegion (Function.update s.workers i WPc.wInc) s.count : Int)
                rw [countRegion_update_eq s.workers WPc.wInc i s.count hi
                  (by rw [hpc]; rfl)]
                exact hsleep
              · exact waiting_update_of_not_mem hwait hni WPc.wInc
            · simp at hstep
          · rw [Option.some.injEq] at hstep
            subst hstep
            refine ⟨?_, ?_, hnd, howner, hlog, hebb, htmr⟩
            · show s.sleep =
                (countRegion (Function.update s.workers i WPc.wDispatch) s.count : Int)
              rw [countRegion_update_eq s.workers WPc.wDispatch i s.count hi
                (by rw [hpc]; rfl)]
              exact hsleep
            · exact waiting_update_of_not_mem hwait hni WPc.wDispatch
        · simp at hstep
    | workerSleepEnter i =>
        simp only [step] at hstep
        rw [if_neg hh] at hstep
        split at hstep
        · rename_i hcond
          obtain ⟨hi, hpc, hmo⟩ := hcond
          have hni : i ∉ s.waiting :=
            not_mem_waiting hwait (by rw [hpc]; intro hx; exact WPc.noConfusion hx)
          rw [Option.some.injEq] at hstep
          subst hstep
          have hcr : countRegion (Function.update s.workers i WPc.wBlocked) s.count =
              countRegion s.workers s.count + 1 := by
            have hadd := countRegion_update_add s.workers WPc.wBlocked i s.count hi
            rw [hpc] at hadd
            simpa [inSleepRegion] using hadd
          refine ⟨?_, ?_, List.nodup_cons.mpr ⟨hni, hnd⟩, trivial, ?_, ?_, ?_⟩
          · show s.sleep + 1 =
              (countRegion (Function.update s.workers i WPc.wBlocked) s.count : Int)
            rw [hcr]
            push_cast
            omega
          · intro j hj
            rcases List.mem_cons.mp hj with rfl | hj2
            · exact ⟨Function.update_same j WPc.wBlocked s.workers, hi⟩
            · exact waiting_update_of_not_mem hwait hni WPc.wBlocked j hj2
          · exact all_evOk_append hlog
              (by simp [evOk, writeLocked, readUnlocked, hmo])
          · exact ebb_append_of_no_broadcast s.log _ false hebb
              (no_broadcast_single (by intro hx; exact Ev.noConfusion hx))
          · intro hca
            exact List.mem_append.mpr (Or.inl (htmr hca))
        · simp at hstep
    | workerSpurious i =>
        simp only [step] at hstep
        rw [if_neg hh] at hstep
        split at hstep
        · rename_i hcond
          obtain ⟨hi, hpc, hmem⟩ := hcond
          rw [Option.some.injEq] at hstep
          subst hstep
          refine ⟨?_, ?_, List.Nodup.erase i hnd, howner, hlog, hebb, htmr⟩
          · show s.sleep =
              (countRegion (Function.update s.workers i WPc.wWoken) s.count : Int)
            rw [countRegion_update_eq s.workers WPc.wWoken i s.count hi
              (by rw [hpc]; rfl)]
            exact hsleep
          · intro j hj
            have hj2 := (List.Nodup.mem_erase_iff hnd).mp hj
            refine ⟨?_, (hwait j hj2.2).2⟩
            show Function.update s.workers i WPc.wWoken j = WPc.wBlocked
            rw [Function.update_noteq hj2.1 WPc.wWoken s.workers]
            exact (hwait j hj2.2).1
        · simp at hstep
    | workerReacquire i =>
        simp only [step] at hstep
        rw [if_neg hh] at hstep
        split at hstep
        · rename_i hcond
          obtain ⟨hi, hpc, hmo⟩ := hcond
          have hni : i ∉ s.waiting :=
            not_mem_waiting hwait (by rw [hpc]; intro hx; exact WPc.noConfusion hx)
          rw [Option.some.injEq] at hstep
          subst hstep
          refine ⟨?_, ?_, hnd, trivial, hlog, hebb, htmr⟩
          · show s.sleep =
              (countRegion (Function.update s.workers i WPc.wDec) s.count : Int)
            rw [countRegion_update_eq s.workers WPc.wDec i s.count hi
              (by rw [hpc]; rfl)]
            exact hsleep
          · exact waiting_update_of_not_mem hwait hni WPc.wDec
        · simp at hstep
    | workerDec i =>
        simp only [step] at hstep
        rw [if_neg hh] at hstep
        split at hstep
        · rename_i hcond
          obtain ⟨hi, hpc, hmo⟩ := hcond
          have hni : i ∉ s.waiting :=
            not_mem_waiting hwait (by rw [hpc]; intro hx; exact WPc.noConfusion hx)
          rw [Option.some.injEq] at hstep
          subst hstep
          have hcr : countRegion (Function.update s.workers i WPc.wUnlock) s.count + 1 =
              countRegion s.workers s.count := by
            have hadd := countRegion_update_add s.workers WPc.wUnlock i s.count hi
            rw [hpc] at hadd
            simpa [inSleepRegion] using hadd
          refine ⟨?_, waiting_update_of_not_mem hwait hni WPc.wUnlock, hnd, howner,
            ?_, ?_, ?_⟩
          · show s.sleep - 1 =
              (countRegion (Function.update s.workers i WPc.wUnlock) s.count : Int)
            rw [hsleep]
            omega
          · exact all_evOk_append hlog
              (by simp [evOk, writeLocked, readUnlocked, hmo])
          · exact ebb_append_of_no_broadcast s.log _ false hebb
              (no_broadcast_single (by intro hx; exact Ev.noConfusion hx))
          · intro hca
            exact List.mem_append.mpr (Or.inl (htmr hca))
        · simp at hstep
    | workerUnlock i ok =>
        simp only [step] at hstep
        rw [if_neg hh] at hstep
        split at hstep
        · rename_i hcond
          obtain ⟨hi, hpc, hmo⟩ := hcond
          have hni : i ∉ s.waiting :=
            not_mem_waiting hwait (by rw [hpc]; intro hx; exact WPc.noConfusion hx)
          split at hstep <;>
            (rw [Option.some.injEq] at hstep; subst hstep)
          · refine ⟨?_, ?_, hnd, trivial, hlog, hebb, htmr⟩
            · show s.sleep =
                (countRegion (Function.update s.workers i WPc.wDispatch) s.count : Int)
              rw [countRegion_update_eq s.workers WPc.wDispatch i s.count hi
                (by rw [hpc]; rfl)]
              exact hsleep
            · exact waiting_update_of_not_mem hwait hni WPc.wDispatch
          · refine ⟨?_, ?_, hnd, howner, ?_, ?_, ?_⟩
            · show s.sleep =
                (countRegion (Function.update s.workers i WPc.wCrash) s.count : Int)
              rw [countRegion_update_eq s.workers WPc.wCrash i s.count hi
                (by rw [hpc]; rfl)]
              exact hsleep
            · exact waiting_update_of_not_mem hwait hni WPc.wCrash
            · exact all_evOk_append hlog (by simp [evOk, writeLocked, readUnlocked])
            · exact ebb_append_of_no_broadcast s.log _ false hebb
                (no_broadcast_single (by intro hx; exact Ev.noConfusion hx))
            · intro hca
              exact List.mem_append.mpr (Or.inl (htmr hca))
        · simp at hstep
    | timerUpdate =>
        simp only [step] at hstep
        rw [if_neg hh] at hstep
        split at hstep
        · rw [Option.some.injEq] at hstep
          subst hstep
          refine ⟨hsleep, hwait, hnd, howner, hlog, hebb, ?_⟩
          intro hca
          rcases hca with hx | hx <;> exact TimerPc.noConfusion hx
        · simp at hstep
    | timerCheck total =>
        simp only [step] at hstep
        rw [if_neg hh] at hstep
        split at hstep
        · split at hstep <;>
            (rw [Option.some.injEq] at hstep; subst hstep) <;>
            refine ⟨hsleep, hwait, hnd, howner, hlog, hebb, ?_⟩ <;>
            (intro hca; rcases hca with hx | hx <;> exact TimerPc.noConfusion hx)
        · simp at hstep
    | timerWakeup target =>
        simp only [step] at hstep
        rw [if_neg hh] at hstep
        split at hstep
        · rename_i hpcT
          cases target with
          | some j =>
              simp only [wakeup] at hstep
              split at hstep
              · split at hstep
                · rename_i hguard hmem
                  simp only [Option.map_some', Option.some.injEq] at hstep
                  subst hstep
                  refine ⟨?_, ?_, List.Nodup.erase j hnd, howner, ?_, ?_, ?_⟩
                  · show s.sleep =
                      (countRegion (Function.update s.workers j WPc.wWoken) s.count : Int)
                    rw [countRegion_update_eq s.workers WPc.wWoken j s.count
                      (hwait j hmem).2 (by rw [(hwait j hmem).1]; rfl)]
                    exact hsleep
                  · intro j2 hj2
                    have hj3 := (List.Nodup.mem_erase_iff hnd).mp hj2
                    refine ⟨?_, (hwait j2 hj3.2).2⟩
                    show Function.update s.workers j WPc.wWoken j2 = WPc.wBlocked
                    rw [Function.update_noteq hj3.1 WPc.wWoken s.workers]
                    exact (hwait j2 hj3.2).1
                  · refine all_evOk_append hlog ?_
                    have hro := (owner_reads_unlocked s.mutexOwner howner).1
                    simp [evOk, writeLocked, readUnlocked, hro]
                  · exact ebb_append_of_no_broadcast s.log _ false hebb
                      (no_broadcast_pair (by intro hx; exact Ev.noConfusion hx)
                        (by intro hx; exact Ev.noConfusion hx))
                  · intro hca
                    rcases hca with hx | hx <;> exact TimerPc.noConfusion hx
                · simp at hstep
              · simp at hstep
          | none =>
              simp only [wakeup] at hstep
              split at hstep
              · split at hstep
                · simp only [Option.map_some', Option.some.injEq] at hstep
                  subst hstep
                  refine ⟨hsleep, hwait, hnd, howner, ?_, ?_, ?_⟩
                  · refine all_evOk_append hlog ?_
                    have hro := (owner_reads_unlocked s.mutexOwner howner).1
                    simp [evOk, writeLocked, readUnlocked, hro]
                  · exact ebb_append_of_no_broadcast s.log _ false hebb
                      (no_broadcast_pair (by intro hx; exact Ev.noConfusion hx)
                        (by intro hx; exact Ev.noConfusion hx))
                  · intro hca
                    rcases hca with hx | hx <;> exact TimerPc.noConfusion hx
                · simp at hstep
              · simp only [Option.map_some', Option.some.injEq] at hstep
                subst hstep
                refine ⟨hsleep, hwait, hnd, howner, ?_, ?_, ?_⟩
                · refine all_evOk_append hlog ?_
                  have hro := (owner_reads_unlocked s.mutexOwner howner).1
                  simp [evOk, writeLocked, readUnlocked, hro]
                · exact ebb_append_of_no_broadcast s.log _ false hebb
                    (no_broadcast_single (by intro hx; exact Ev.noConfusion hx))
                · intro hca
                  rcases hca with hx | hx <;> exact TimerPc.noConfusion hx
        · simp at hstep
    | timerSleep =>
        simp only [step] at hstep
        rw [if_neg hh] at hstep
        split at hstep
        · rw [Option.some.injEq] at hstep
          subst hstep
          refine ⟨hsleep, hwait, hnd, howner, hlog, hebb, ?_⟩
          intro hca
          rcases hca with hx | hx <;> exact TimerPc.noConfusion hx
        · simp at hstep
    | timerSocketExit =>
        simp only [step] at hstep
        rw [if_neg hh] at hstep
        split at hstep
        · rw [Option.some.injEq] at hstep
          subst hstep
          refine ⟨hsleep, hwait, hnd, howner, ?_, ?_, ?_⟩
          · exact all_evOk_append hlog (by simp [evOk, writeLocked, readUnlocked])
          · exact ebb_append_of_no_broadcast s.log _ false hebb
              (no_broadcast_single (by intro hx; exact Ev.noConfusion hx))
          · intro _
            exact List.mem_append.mpr (Or.inr (List.mem_singleton.mpr rfl))
        · simp at hstep
    | timerBroadcast =>
        simp only [step] at hstep
        rw [if_neg hh] at hstep
        split at hstep
        · rename_i hpcT
          rw [Option.some.injEq] at hstep
          subst hstep
          have hse : Ev.socketExit ∈ s.log := htmr (Or.inl hpcT)
          refine ⟨?_, ?_, List.nodup_nil, howner, ?_, ?_, ?_⟩
          · show s.sleep = (countRegion (wakeAll s.workers s.waiting) s.count : Int)
            rw [wakeAll_countRegion s.workers s.count s.waiting hwait hnd]
            exact hsleep
          · intro j hj
            exact absurd hj (List.not_mem_nil j)
          · exact all_evOk_append hlog (by simp [evOk, writeLocked, readUnlocked])
          · exact ebb_append_broadcast s.log hse hebb
          · intro _
            exact List.mem_append.mpr (Or.inl hse)
        · simp at hstep
    | socketPoll r =>
        simp only [step] at hstep
        rw [if_neg hh] at hstep
        split at hstep
        · split at hstep
          · rw [Option.some.injEq] at hstep
            subst hstep
            exact ⟨hsleep, hwait, hnd, howner, hlog, hebb, htmr⟩
          · split at hstep <;>
              (rw [Option.some.injEq] at hstep; subst hstep) <;>
              exact ⟨hsleep, hwait, hnd, howner, hlog, hebb, htmr⟩
        · simp at hstep
    | socketCheck total =>
        simp only [step] at hstep
        rw [if_neg hh] at hstep
        split at hstep
        · split at hstep <;>
            (rw [Option.some.injEq] at hstep; subst hstep) <;>
            exact ⟨hsleep, hwait, hnd, howner, hlog, hebb, htmr⟩
        · simp at hstep
    | socketWakeup target =>
        simp only [step] at hstep
        rw [if_neg hh] at hstep
        split at hstep
        · cases target with
          | some j =>
              simp only [wakeup] at hstep
              split at hstep
              · split at hstep
                · rename_i hguard hmem
                  simp only [Option.map_some', Option.some.injEq] at hstep
                  subst hstep
                  refine ⟨?_, ?_, List.Nodup.erase j hnd, howner, ?_, ?_, ?_⟩
                  · show s.sleep =
                      (countRegion (Function.update s.workers j WPc.wWoken) s.count : Int)
                    rw [countRegion_update_eq s.workers WPc.wWoken j s.count
                      (hwait j hmem).2 (by rw [(hwait j hmem).1]; rfl)]
                    exact hsleep
                  · intro j2 hj2
                    have hj3 := (List.Nodup.mem_erase_iff hnd).mp hj2
                    refine ⟨?_, (hwait j2 hj3.2).2⟩
                    show Function.update s.workers j WPc.wWoken j2 = WPc.wBlocked
                    rw [Function.update_noteq hj3.1 WPc.wWoken s.workers]
                    exact (hwait j2 hj3.2).1
                  · refine all_evOk_append hlog ?_
                    have hro := (owner_reads_unlocked s.mutexOwner howner).2
                    simp [evOk, writeLocked, readUnlocked, hro]
                  · exact ebb_append_of_no_broadcast s.log _ false hebb
                      (no_broadcast_pair (by intro hx; exact Ev.noConfusion hx)
                        (by intro hx; exact Ev.noConfusion hx))
                  · intro hca
                    exact List.mem_append.mpr (Or.inl (htmr hca))
                · simp at hstep
              · simp at hstep
          | none =>
              simp only [wakeup] at hstep
              split at hstep
              · split at hstep
                · simp only [Option.map_some', Option.some.injEq] at hstep
                  subst hstep
                  refine ⟨hsleep, hwait, hnd, howner, ?_, ?_, ?_⟩
                  · refine all_evOk_append hlog ?_
                    have hro := (owner_reads_unlocked s.mutexOwner howner).2
                    simp [evOk, writeLocked, readUnlocked, hro]
                  · exact ebb_append_of_no_broadcast s.log _ false hebb
                      (no_broadcast_pair (by intro hx; exact Ev.noConfusion hx)
                        (by intro hx; exact Ev.noConfusion hx))
                  · intro hca
                    exact List.mem_append.mpr (Or.inl (htmr hca))
                · simp at hstep
              · simp only [Option.map_some', Option.some.injEq] at hstep
                subst hstep
                refine ⟨hsleep, hwait, hnd, howner, ?_, ?_, ?_⟩
                · refine all_evOk_append hlog ?_
                  have hro := (owner_reads_unlocked s.mutexOwner howner).2
                  simp [evOk, writeLocked, readUnlocked, hro]
                · exact ebb_append_of_no_broadcast s.log _ false hebb
                    (no_broadcast_single (by intro hx; exact Ev.noConfusion hx))
                · intro hca
                  exact List.mem_append.mpr (Or.inl (htmr hca))
        · simp at hstep
    | monitorCheck total =>
        simp only [step] at hstep
        rw [if_neg hh] at hstep
        split at hstep
        · split at hstep <;>
            (rw [Option.some.injEq] at hstep; subst hstep) <;>
            exact ⟨hsleep, hwait, hnd, howner, hlog, hebb, htmr⟩
        · simp at hstep
    | monitorScan =>
        simp only [step] at hstep
        rw [if_neg hh] at hstep
        cases hm : s.monitor with
        | mScan i =>
            rw [hm] at hstep
            split at hstep
            · rename_i i2 heq
              injection heq with heqi
              subst heqi
              split at hstep <;>
                (rw [Option.some.injEq] at hstep; subst hstep)
              · refine ⟨hsleep, hwait, hnd, howner, ?_, ?_, ?_⟩
                · exact all_evOk_append hlog (by simp [evOk, writeLocked, readUnlocked])
                · exact ebb_append_of_no_broadcast s.log _ false hebb
                    (no_broadcast_single (by intro hx; exact Ev.noConfusion hx))
                · intro hca
                  exact List.mem_append.mpr (Or.inl (htmr hca))
              · exact ⟨hsleep, hwait, hnd, howner, hlog, hebb, htmr⟩
            · rename_i hfalse
              exact absurd rfl (hfalse i)
        | mCheck => rw [hm] at hstep; simp at hstep
        | mSleepCheck j => rw [hm] at hstep; simp at hstep
        | mSleep j => rw [hm] at hstep; simp at hstep
        | mDone => rw [hm] at hstep; simp at hstep
    | monitorSleepCheck total =>
        simp only [step] at hstep
        rw [if_neg hh] at hstep
        cases hm : s.monitor with
        | mSleepCheck j =>
            rw [hm] at hstep
            split at hstep
            · rename_i j2 heq
              injection heq with heqj
              subst heqj
              split at hstep <;>
                (rw [Option.some.injEq] at hstep; subst hstep) <;>
                exact ⟨hsleep, hwait, hnd, howner, hlog, hebb, htmr⟩
            · rename_i hfalse
              exact absurd rfl (hfalse j)
        | mCheck => rw [hm] at hstep; simp at hstep
        | mScan i => rw [hm] at hstep; simp at hstep
        | mSleep j => rw [hm] at hstep; simp at hstep
        | mDone => rw [hm] at hstep; simp at hstep
    | monitorSleep =>
        simp only [step] at hstep
        rw [if_neg hh] at hstep
        cases hm : s.monitor with
        | mSleep j =>
            rw [hm] at hstep
            split at hstep
            · rename_i j2 heq
              injection heq with heqj
              subst heqj
              split at hstep <;>
                (rw [Option.some.injEq] at hstep; subst hstep) <;>
                refine ⟨hsleep, hwait, hnd, howner, ?_, ?_, ?_⟩ <;>
                first
                  | exact all_evOk_append hlog
                      (by simp [evOk, writeLocked, readUnlocked])
                  | exact ebb_append_of_no_broadcast s.log _ false hebb
                      (no_broadcast_single (by intro hx; exact Ev.noConfusion hx))
                  | (intro hca; exact List.mem_append.mpr (Or.inl (htmr hca)))
            · rename_i hfalse
              exact absurd rfl (hfalse j)
        | mCheck => rw [hm] at hstep; simp at hstep
        | mScan i => rw [hm] at hstep; simp at hstep
        | mSleepCheck j => rw [hm] at hstep; simp at hstep
        | mDone => rw [hm] at hstep; simp at hstep

theorem masterInv_init (n : Nat) : MasterInv (init n) := by
  refine ⟨?_, ?_, List.nodup_nil, trivial, rfl, rfl, ?_⟩
  · show (0 : Int) = (countRegion (fun _ => WPc.wDispatch) n : Int)
    rw [countRegion_const_dispatch n]
    rfl
  · intro j hj
    exact absurd hj (List.not_mem_nil j)
  · intro hca
    rcases hca with hx | hx <;> exact TimerPc.noConfusion hx

theorem masterInv_reachable (n : Nat) (acts : List Action) (s : SysState)
    (h : run (init n) acts = some s) : MasterInv s :=
  run_preserve MasterInv (fun s1 a s2 hP hs => masterInv_step s1 s2 a hP hs)
    acts (init n) s (masterInv_init n) h

/-- C5: in every reachable state of the scheduler,
`0 <= sleepingCount <= workerCount`: `m->sleep` is initialized to 0 by
`_start` and every enabled step of every thread role preserves the
bounds. -/
theorem C5_theorem (n : Nat) (acts : List Action) (s : SysState)
    (h : run (init n) acts = some s) :
    (init n).sleep = 0 ∧ 0 ≤ s.sleep ∧ s.sleep ≤ (s.count : Int) := by
  obtain ⟨hsleep, -, -, -, -, -, -⟩ := masterInv_reachable n acts s h
  refine ⟨rfl, ?_, ?_⟩
  · rw [hsleep]
    exact Int.natCast_nonneg (countRegion s.workers s.count)
  · rw [hsleep]
    exact_mod_cast countRegion_le s.workers s.count

/-- C5 witness: the bounds hold in the concrete reachable 3-worker state
where worker 0 sleeps. -/
theorem C5_witness :
    (init 3).sleep = 0 ∧ 0 ≤ c5wState.sleep ∧
      c5wState.sleep ≤ (c5wState.count : Int) :=
  C5_theorem 3 c5wTrace c5wState rfl

/-- C2 fails on the code: in a reachable state the socket thread's
`wakeup(m, 0)` call reads `m->sleep` without holding `m->mutex` (the guard
`m->sleep >= m->count - busy` is evaluated before any locking), so the
reachable log contains a sleep access outside the lock. -/
theorem C2_counterexample :
    (run (init 1) c2cexTrace).map (fun s => (s.log, s.log.all accessLocked)) =
      some ([Ev.sleepRead Tid.socket false], false) := by
  rfl

/-- C2 amended: every write of `sleepingCount` (the worker's increment and
decrement) occurs while holding `lock`, but the wakeup heuristic's read of
`sleepingCount` in the Timer and Socket-Poll threads always occurs without
holding `lock`. -/
theorem C2_theorem (n : Nat) (acts : List Action) (s : SysState)
    (h : run (init n) acts = some s) :
    s.log.all writeLocked = true ∧ s.log.all readUnlocked = true := by
  obtain ⟨-, -, -, -, hlog, -, -⟩ := masterInv_reachable n acts s h
  have h1 : ∀ e ∈ s.log, evOk e = true := List.all_eq_true.mp hlog
  constructor
  · refine List.all_eq_true.mpr (fun e he => ?_)
    have h2 := h1 e he
    simp [evOk] at h2
    exact h2.1
  · refine List.all_eq_true.mpr (fun e he => ?_)
    have h2 := h1 e he
    simp [evOk] at h2
    exact h2.2

/-- C2 witness: in the concrete reachable state whose log holds both a
worker's write and the socket thread's heuristic read, the writes are
locked and the reads unlocked. -/
theorem C2_witness :
    c2wState.log.all writeLocked = true ∧
      c2wState.log.all readUnlocked = true :=
  C2_theorem 1 c2wTrace c2wState rfl

/-- C3: on the timer thread's shutdown path the `skynet_socket_exit` call
always precedes the `pthread_cond_broadcast` (in every reachable log every
broadcast is preceded by the socket exit); observing zero live services
sends the timer to the socket-exit statement, the exit statement then logs
`socketExit` and moves to the broadcast, and the broadcast releases every
waiting worker, not just up to the wakeup heuristic. -/
theorem C3_theorem (n : Nat) (acts : List Action) (s : SysState)
    (h : run (init n) acts = some s) (hh : s.halted = false) :
    exitBeforeBroadcast false s.log = true ∧
    (s.timer = TimerPc.tCheck →
      (step s (Action.timerCheck 0)).map (fun t => t.timer) =
        some TimerPc.tExitSocket) ∧
    (s.timer = TimerPc.tExitSocket →
      (step s Action.timerSocketExit).map (fun t => (t.timer, t.log)) =
        some (TimerPc.tBroadcast, s.log ++ [Ev.socketExit])) ∧
    (s.timer = TimerPc.tBroadcast →
      (step s Action.timerBroadcast).map
          (fun t => (t.timer, t.waiting,
            s.waiting.all (fun j => decide (t.workers j = WPc.wWoken)))) =
        some (TimerPc.tDone, [], true)) := by
  obtain ⟨-, -, -, -, -, hebb, -⟩ := masterInv_reachable n acts s h
  refine ⟨hebb, ?_, ?_, ?_⟩
  · intro hpc
    simp [step, hh, hpc]
  · intro hpc
    simp [step, hh, hpc]
  · intro hpc
    simp [step, hh, hpc]
    exact fun j hj => wakeAll_mem s.workers j s.waiting hj

/-- C3 witness: the shutdown ordering holds of the concrete reachable state
whose timer has executed its full shutdown sequence. -/
theorem C3_witness : exitBeforeBroadcast false c3wState.log = true :=
  (C3_theorem 1 c3wTrace c3wState rfl rfl).1

/-- C1 fails on the code: in a reachable 2-worker state with
`sleepingCount = 1` (so at least one worker is asleep) and the socket
thread about to issue its network wakeup, the `wakeup(m, 0)` call wakes
nobody: the step that would wake the sleeping worker is not enabled, and
the enabled step leaves it blocked, because the guard
`m->sleep >= m->count - 0` demands that all workers sleep. -/
theorem C1_counterexample :
    (run (init 2) c1cexTrace).map
        (fun s => (s.sleep, s.socket, decide (0 ∈ s.waiting),
          (step s (Action.socketWakeup (some 0))).isNone,
          (step s (Action.socketWakeup none)).map
            (fun t => (t.waiting, t.workers 0, t.sleep)))) =
      some (1, SocketPc.sWakeup, true, true,
        some ([0], WPc.wBlocked, 1)) := by
  rfl

/-- C1 amended: the Socket-Poll thread's wakeup call (busyAllowance = 0)
signals the condition variable only when `sleepingCount >= workerCount`,
i.e. when every worker is asleep; in such a state it does wake a sleeping
worker, while in any state with `sleepingCount < workerCount` (even with
`sleepingCount >= 1`) it wakes nobody. -/
theorem C1_theorem (j j2 : Nat) (s t : SysState)
    (hs : s.socket = SocketPc.sWakeup) (hsh : s.halted = false)
    (hj : j ∈ s.waiting) (hge : (s.count : Int) ≤ s.sleep)
    (ht : t.socket = SocketPc.sWakeup) (hth : t.halted = false)
    (hj2 : j2 ∈ t.waiting) (hlt : t.sleep < (t.count : Int)) :
    (step s (Action.socketWakeup (some j))).map
        (fun v => (v.workers j, v.waiting)) =
      some (WPc.wWoken, s.waiting.erase j) ∧
    step t (Action.socketWakeup (some j2)) = none := by
  constructor
  · have hg : wakeup_signals (s.count : Int) s.sleep 0 = true := by
      simp [wakeup_signals]
      omega
    simp [step, hsh, hs, wakeup, hg, hj]
  · have hg : wakeup_signals (t.count : Int) t.sleep 0 = false := by
      simp [wakeup_signals]
      omega
    simp [step, hth, ht, wakeup, hg]

/-- C1 witness: in the concrete reachable 1-worker state where the single
worker sleeps (`sleepingCount = workerCount = 1`), the network wakeup does
wake it. -/
theorem C1_witness :
    (step c1okState (Action.socketWakeup (some 0))).map
        (fun v => (v.workers 0, v.waiting)) =
      some (WPc.wWoken, c1okState.waiting.erase 0) :=
  (C1_theorem 0 0 c1okState c1cexState rfl rfl (by decide) (by decide)
    rfl rfl (by decide) (by decide)).1

/-- C6: the shared wakeup heuristic signals the condition variable exactly
when `sleepingCount >= workerCount - busyAllowance` and otherwise does
nothing (it wakes nobody and leaves the state unchanged); the Socket-Poll
thread invokes it with `busyAllowance = 0` and the Timer thread with
`busyAllowance = workerCount - 1`. -/
theorem C6_theorem (count sleep busy : Int) (trg : Option Nat) (tid2 : Tid)
    (j : Nat) (s t u : SysState)
    (hs : s.socket = SocketPc.sWakeup) (hsh : s.halted = false)
    (ht : t.timer = TimerPc.tWakeup) (hth : t.halted = false)
    (hg : wakeup_signals (u.count : Int) u.sleep busy = false) :
    (wakeup_signals count sleep busy = true ↔ count - busy ≤ sleep) ∧
    step s (Action.socketWakeup trg) =
      (wakeup s Tid.socket 0 trg).map
        (fun v => { v with socket := SocketPc.sPoll }) ∧
    step t (Action.timerWakeup trg) =
      (wakeup t Tid.timer ((t.count : Int) - 1) trg).map
        (fun v => { v with timer := TimerPc.tSleep }) ∧
    wakeup u tid2 busy (some j) = none ∧
    (wakeup u tid2 busy none).map
        (fun v => (v.sleep, v.waiting, v.mutexOwner)) =
      some (u.sleep, u.waiting, u.mutexOwner) := by
  refine ⟨?_, ?_, ?_, ?_, ?_⟩
  · simp [wakeup_signals]
  · simp [step, hsh, hs]
  · simp [step, hth, ht]
  · simp [wakeup, hg]
  · simp [wakeup, hg]

/-- C6 witness: with `workerCount = 2` and `sleepingCount = 0` the guard
fails and the socket-side call wakes nobody. -/
theorem C6_witness : wakeup (init 2) Tid.socket 0 (some 0) = none :=
  (C6_theorem 2 1 0 none Tid.socket 0 c6sState c6tState (init 2)
    rfl rfl rfl rfl rfl).2.2.2.1

/-- C4: the worker loop.  When dispatch reports work was available the
worker dispatches again at once with the whole state unchanged (no lock,
no `sleepingCount` access); when it reports no work and the live-service
count is zero the worker terminates and no further dispatch of that worker
is enabled; otherwise it takes the lock, increments `sleepingCount`,
blocks on the condition variable, and after a wake decrements
`sleepingCount`, releases the lock and loops back to dispatch with
`sleepingCount` restored. -/
theorem C4_theorem (s : SysState) (i total : Nat)
    (hi : i < s.count) (hpc : s.workers i = WPc.wDispatch)
    (hmo : s.mutexOwner = none) (hh : s.halted = false) :
    step s (Action.workerDispatch i false) = some s ∧
    (run s [Action.workerDispatch i true, Action.workerCheck i 0]).map
        (fun t => (t.workers i, t.sleep, t.mutexOwner)) =
      some (WPc.wDone, s.sleep, none) ∧
    ((run s [Action.workerDispatch i true, Action.workerCheck i 0]).bind
        (fun t => step t (Action.workerDispatch i true))) = none ∧
    ((run s [Action.workerDispatch i true, Action.workerCheck i 0]).bind
        (fun t => step t (Action.workerDispatch i false))) = none ∧
    (run s [Action.workerDispatch i true, Action.workerCheck i (total + 1),
        Action.workerLock i true, Action.workerSleepEnter i]).map
        (fun t => (t.workers i, t.sleep, decide (i ∈ t.waiting),
          t.mutexOwner)) =
      some (WPc.wBlocked, s.sleep + 1, true, none) ∧
    (run s [Action.workerDispatch i true, Action.workerCheck i (total + 1),
        Action.workerLock i true, Action.workerSleepEnter i,
        Action.workerSpurious i, Action.workerReacquire i,
        Action.workerDec i, Action.workerUnlock i true]).map
        (fun t => (t.workers i, t.sleep, t.mutexOwner)) =
      some (WPc.wDispatch, s.sleep, none) := by
  refine ⟨?_, ?_, ?_, ?_, ?_, ?_⟩ <;>
    simp [run, step, hh, hi, hpc, hmo]

/-- C4 witness: in the initial 2-worker state, dispatch with work available
loops immediately with the state unchanged. -/
theorem C4_witness :
    step (init 2) (Action.workerDispatch 0 false) = some (init 2) :=
  (C4_theorem (init 2) 0 0 (by decide) rfl rfl rfl).1

/-- C10: a failed `pthread_mutex_lock` on the worker's no-work path is
silently tolerated: the worker does not sleep, does not touch
`sleepingCount`, logs nothing, and immediately retries dispatch; in
contrast a failed `pthread_mutex_unlock` after the wait exits the whole
process (after which nothing further is enabled). -/
theorem C10_theorem (s t : SysState) (i j : Nat)
    (hi : i < s.count) (hpc : s.workers i = WPc.wLock) (hh : s.halted = false)
    (hj : j < t.count) (hpc2 : t.workers j = WPc.wUnlock)
    (hmo2 : t.mutexOwner = some (Tid.worker j)) (hth : t.halted = false) :
    (step s (Action.workerLock i false)).map
        (fun v => (v.workers i, v.sleep, v.waiting, v.mutexOwner, v.log)) =
      some (WPc.wDispatch, s.sleep, s.waiting, s.mutexOwner, s.log) ∧
    ((step s (Action.workerLock i false)).bind
        (fun v => step v (Action.workerDispatch i true))).isSome = true ∧
    (step t (Action.workerUnlock j false)).map
        (fun v => (v.halted, v.workers j, v.log)) =
      some (true, WPc.wCrash,
        t.log ++ [Ev.exitProcess ("unlock mutex error")]) ∧
    ((step t (Action.workerUnlock j false)).bind
        (fun v => step v (Action.workerDispatch j true))) = none := by
  refine ⟨?_, ?_, ?_, ?_⟩ <;>
    simp [step, hh, hi, hpc, hth, hj, hpc2, hmo2]

/-- C10 witness: lock failure in the concrete 1-worker state at the lock
statement leaves everything unchanged and goes back to dispatch. -/
theorem C10_witness :
    (step c10aState (Action.workerLock 0 false)).map
        (fun v => (v.workers 0, v.sleep, v.waiting, v.mutexOwner, v.log)) =
      some (WPc.wDispatch, c10aState.sleep, c10aState.waiting,
        c10aState.mutexOwner, c10aState.log) :=
  (C10_theorem c10aState unlockReadyState 0 0 (by decide) rfl rfl
    (by decide) rfl rfl rfl).1

theorem monitorScan_run (c : Nat) :
    ∀ (s : SysState) (i : Nat), s.halted = false → s.monitor = MonPc.mScan i →
      s.count = i + c →
      (run s (List.replicate (c + 1) Action.monitorScan)).map
          (fun t => (t.monitor, t.log)) =
        some (MonPc.mSleepCheck 0,
          s.log ++ (List.range' i c).map Ev.checkDetector) := by
  induction c with
  | zero =>
      intro s i hh hm hc
      have hnlt : ¬i < s.count := by omega
      simp [run, step, hh, hm, hnlt]
  | succ c ih =>
      intro s i hh hm hc
      have hlt : i < s.count := by omega
      have hstep1 : step s Action.monitorScan =
          some { s with monitor := MonPc.mScan (i + 1),
                        log := s.log ++ [Ev.checkDetector i] } := by
        simp [step, hh, hm, hlt]
      have hrec := ih
        { s with
            monitor := MonPc.mScan (i + 1)
            log := s.log ++ [Ev.checkDetector i] }
        (i + 1) hh rfl (by show s.count = (i + 1) + c; omega)
      rw [List.replicate_succ]
      have hcons : run s (Action.monitorScan ::
          List.replicate (c + 1) Action.monitorScan) =
          (step s Action.monitorScan).bind
            (fun s2 => run s2 (List.replicate (c + 1) Action.monitorScan)) := rfl
      rw [hcons, hstep1, Option.some_bind, hrec, List.range'_succ]
      simp [List.append_assoc]

/-- C9: the watchdog loop.  At the loop head a zero live-service reading
exits the thread (after which no monitor action is enabled) and a nonzero
reading starts the scan; the scan performs one progress check per
StallDetector in index order (`checkDetector 0 .. n-1`); the 5-iteration
sleep loop re-checks the live-service count before each of its five
one-second sleeps, exits immediately on a zero reading, and otherwise
returns to the loop head after exactly five sleeps. -/
theorem C9_theorem (j total : Nat) (s1 s2 s3 s4 s5 s6 : SysState)
    (h1 : s1.monitor = MonPc.mCheck) (h1h : s1.halted = false)
    (h2 : s2.monitor = MonPc.mScan 0) (h2h : s2.halted = false)
    (h3 : s3.monitor = MonPc.mSleepCheck j) (h3h : s3.halted = false)
    (h4 : s4.monitor = MonPc.mSleep j) (h4h : s4.halted = false)
    (h5 : s5.monitor = MonPc.mSleepCheck 0) (h5h : s5.halted = false)
    (h6 : s6.monitor = MonPc.mDone) :
    (step s1 (Action.monitorCheck 0)).map (fun t => t.monitor) =
      some MonPc.mDone ∧
    (step s1 (Action.monitorCheck (total + 1))).map (fun t => t.monitor) =
      some (MonPc.mScan 0) ∧
    (run s2 (List.replicate (s2.count + 1) Action.monitorScan)).map
        (fun t => (t.monitor, t.log)) =
      some (MonPc.mSleepCheck 0,
        s2.log ++ (List.range s2.count).map Ev.checkDetector) ∧
    (step s3 (Action.monitorSleepCheck 0)).map (fun t => t.monitor) =
      some MonPc.mDone ∧
    (step s3 (Action.monitorSleepCheck (total + 1))).map (fun t => t.monitor) =
      some (MonPc.mSleep j) ∧
    (j < 4 → (step s4 Action.monitorSleep).map (fun t => (t.monitor, t.log)) =
      some (MonPc.mSleepCheck (j + 1), s4.log ++ [Ev.monSleep])) ∧
    (j = 4 → (step s4 Action.monitorSleep).map (fun t => (t.monitor, t.log)) =
      some (MonPc.mCheck, s4.log ++ [Ev.monSleep])) ∧
    (run s5 [Action.monitorSleepCheck (total + 1), Action.monitorSleep,
        Action.monitorSleepCheck (total + 1), Action.monitorSleep,
        Action.monitorSleepCheck (total + 1), Action.monitorSleep,
        Action.monitorSleepCheck (total + 1), Action.monitorSleep,
        Action.monitorSleepCheck (total + 1), Action.monitorSleep]).map
        (fun t => (t.monitor, t.log)) =
      some (MonPc.mCheck, s5.log ++ [Ev.monSleep, Ev.monSleep, Ev.monSleep,
        Ev.monSleep, Ev.monSleep]) ∧
    step s6 (Action.monitorCheck total) = none ∧
    step s6 Action.monitorScan = none ∧
    step s6 (Action.monitorSleepCheck total) = none ∧
    step s6 Action.monitorSleep = none := by
  refine ⟨?_, ?_, ?_, ?_, ?_, ?_, ?_, ?_, ?_, ?_, ?_, ?_⟩
  · simp [step, h1h, h1]
  · simp [step, h1h, h1]
  · rw [monitorScan_run s2.count s2 0 h2h h2 (by omega)]
    rw [List.range_eq_range']
  · simp [step, h3h, h3]
  · simp [step, h3h, h3]
  · intro hj4
    have : j + 1 < 5 := by omega
    simp [step, h4h, h4, this]
  · intro hj4
    subst hj4
    simp [step, h4h, h4]
  · simp [run, step, h5h, h5, List.append_assoc]
  · by_cases hhh : s6.halted = true
    · simp [step, hhh]
    · simp [step, hhh, h6]
  · by_cases hhh : s6.halted = true
    · simp [step, hhh]
    · simp [step, hhh, h6]
  · by_cases hhh : s6.halted = true
    · simp [step, hhh]
    · simp [step, hhh, h6]
  · by_cases hhh : s6.halted = true
    · simp [step, hhh]
    · simp [step, hhh, h6]

/-- C9 witness: the scan of the concrete reachable 1-worker state checks
detector 0 and reaches the sleep loop. -/
theorem C9_witness :
    (run c9aState (List.replicate (c9aState.count + 1)
        Action.monitorScan)).map (fun t => (t.monitor, t.log)) =
      some (MonPc.mSleepCheck 0,
        c9aState.log ++ (List.range c9aState.count).map Ev.checkDetector) :=
  (C9_theorem 0 0 (init 1) c9aState c9bState c9cState c9bState c9dState
    rfl rfl rfl rfl rfl rfl rfl rfl rfl rfl rfl).2.2.1

theorem filter_map_none {α : Type} (p : SEv → Bool) (f : α → SEv)
    (h : ∀ a, p (f a) = false) :
    ∀ l : List α, (l.map f).filter p = [] := by
  intro l
  induction l with
  | nil => rfl
  | cons a rest ih => simp [h, ih]

theorem filter_map_all {α : Type} (p : SEv → Bool) (f : α → SEv)
    (h : ∀ a, p (f a) = true) :
    ∀ l : List α, (l.map f).filter p = l.map f := by
  intro l
  induction l with
  | nil => rfl
  | cons a rest ih => simp [h, ih]

theorem spawnThreads_ok (sf : Nat → Bool) (h : ∀ k0, sf k0 = false) :
    ∀ (roles : List Role) (k : Nat) (tr : List SEv),
      spawnThreads sf k roles tr = Except.ok (tr ++ roles.map SEv.spawn) := by
  intro roles
  induction roles with
  | nil => intro k tr; simp [spawnThreads]
  | cons r rest ih =>
      intro k tr
      simp [spawnThreads, create_thread, h k, ih rest.length, ih (k + 1),
        List.append_assoc]

theorem startRoles_length (n : Nat) : (startRoles n).length = n + 3 := by
  simp [startRoles]

theorem spawnThreads_error (sf : Nat → Bool) :
    ∀ (k0 : Nat) (roles : List Role) (k : Nat) (tr : List SEv),
      k0 < roles.length → sf (k + k0) = true →
      (∀ j, j < k0 → sf (k + j) = false) →
      spawnThreads sf k roles tr =
        Except.error (tr ++ (roles.take k0).map SEv.spawn,
          "Create thread failed") := by
  intro k0
  induction k0 with
  | zero =>
      intro roles k tr hlen hf hprev
      cases roles with
      | nil => simp at hlen
      | cons r rest =>
          have hfk : sf k = true := by simpa using hf
          simp [spawnThreads, create_thread, hfk]
  | succ k0 ih =>
      intro roles k tr hlen hf hprev
      cases roles with
      | nil => simp at hlen
      | cons r rest =>
          have hf0 : sf k = false := by
            have h0 := hprev 0 (Nat.succ_pos k0)
            simpa using h0
          have hrec := ih rest (k + 1) (tr ++ [SEv.spawn r])
            (by simp at hlen; omega)
            (by have heq : k + 1 + k0 = k + (k0 + 1) := by omega
                rw [heq]; exact hf)
            (by intro j hj
                have heq : k + 1 + j = k + (j + 1) := by omega
                rw [heq]; exact hprev (j + 1) (by omega))
          simp [spawnThreads, create_thread, hf0, hrec, List.append_assoc]

/-- C7: the failure-free `_start` creates exactly `workerCount`
StallDetectors, spawns exactly `workerCount + 3` threads (the watchdog,
the timer, the socket thread and the `workerCount` workers, in that
order), joins all `workerCount + 3` of them, and only afterwards runs
`free_monitor`, which deletes every detector, destroys the mutex and the
condition variable and frees the memory: the trace splits into a prefix
holding detector creation, spawns and joins with no release event, and
the `free_monitor` suffix. -/
theorem C7_theorem (n : Nat) :
    start n false false (fun _ => false) = Except.ok (okTrace n) ∧
    okTrace n = startPre n ++ free_monitor n ∧
    (startPre n).filter isSpawn = (startRoles n).map SEv.spawn ∧
    ((startPre n).filter isSpawn).length = n + 3 ∧
    ((startPre n).filter isJoin).length = n + 3 ∧
    ((startPre n).filter isNewDetector).length = n ∧
    (startPre n).all (fun e => !isRelease e) = true ∧
    free_monitor n = (List.range n).map SEv.delDetector ++
      [SEv.destroyMutex, SEv.destroyCond, SEv.freeDetArray, SEv.freeSelf] := by
  have hds : ((List.range n).map SEv.newDetector).filter isSpawn = [] :=
    filter_map_none isSpawn SEv.newDetector (fun a => rfl) (List.range n)
  have hjs : ((List.range (n + 3)).map SEv.join).filter isSpawn = [] :=
    filter_map_none isSpawn SEv.join (fun a => rfl) (List.range (n + 3))
  have hss : ((startRoles n).map SEv.spawn).filter isSpawn =
      (startRoles n).map SEv.spawn :=
    filter_map_all isSpawn SEv.spawn (fun a => rfl) (startRoles n)
  have hdj : ((List.range n).map SEv.newDetector).filter isJoin = [] :=
    filter_map_none isJoin SEv.newDetector (fun a => rfl) (List.range n)
  have hsj : ((startRoles n).map SEv.spawn).filter isJoin = [] :=
    filter_map_none isJoin SEv.spawn (fun a => rfl) (startRoles n)
  have hjj : ((List.range (n + 3)).map SEv.join).filter isJoin =
      (List.range (n + 3)).map SEv.join :=
    filter_map_all isJoin SEv.join (fun a => rfl) (List.range (n + 3))
  have hdd : ((List.range n).map SEv.newDetector).filter isNewDetector =
      (List.range n).map SEv.newDetector :=
    filter_map_all isNewDetector SEv.newDetector (fun a => rfl) (List.range n)
  have hsd : ((startRoles n).map SEv.spawn).filter isNewDetector = [] :=
    filter_map_none isNewDetector SEv.spawn (fun a => rfl) (startRoles n)
  have hjd : ((List.range (n + 3)).map SEv.join).filter isNewDetector = [] :=
    filter_map_none isNewDetector SEv.join (fun a => rfl) (List.range (n + 3))
  have hsp := spawnThreads_ok (fun _ => false) (fun k0 => rfl) (startRoles n) 0
    ((List.range n).map SEv.newDetector)
  refine ⟨?_, rfl, ?_, ?_, ?_, ?_, ?_, rfl⟩
  · simp [start, hsp, okTrace, startPre, free_monitor, List.append_assoc]
  · simp [startPre, List.filter_append, hds, hjs, hss]
  · simp [startPre, List.filter_append, hds, hjs, hss, startRoles_length]
  · simp [startPre, List.filter_append, hdj, hsj, hjj]
  · simp [startPre, List.filter_append, hdd, hsd, hjd]
  · refine List.all_eq_true.mpr (fun e he => ?_)
    rcases List.mem_append.mp he with h1 | h2
    · rcases List.mem_append.mp h1 with h3 | h3
      · obtain ⟨a, -, rfl⟩ := List.mem_map.mp h3
        rfl
      · obtain ⟨a, -, rfl⟩ := List.mem_map.mp h3
        rfl
    · obtain ⟨a, -, rfl⟩ := List.mem_map.mp h2
      rfl

/-- C8: every fatal setup failure exits the process at once with its
diagnostic and without any retry or partial pool: mutex-initialization
failure and condition-variable-initialization failure abort `_start`
before any thread is spawned; the first `pthread_create` failure aborts it
with only the earlier spawns in the trace and no join or release event;
and a failed `pthread_mutex_unlock` after the wait halts the process
(no further step of any thread is enabled). -/
theorem C8_theorem (n k : Nat) (cf : Bool) (sf : Nat → Bool) (s : SysState)
    (i : Nat) (hk : k < n + 3) (hfk : sf k = true)
    (hprev : ∀ j, j < k → sf j = false)
    (hpc : s.workers i = WPc.wUnlock)
    (hmo : s.mutexOwner = some (Tid.worker i))
    (hi : i < s.count) (hh : s.halted = false) :
    start n true cf sf =
      Except.error ((List.range n).map SEv.newDetector, "Init mutex error") ∧
    start n false true sf =
      Except.error ((List.range n).map SEv.newDetector, "Init cond error") ∧
    start n false false sf =
      Except.error ((List.range n).map SEv.newDetector ++
        ((startRoles n).take k).map SEv.spawn, "Create thread failed") ∧
    ((List.range n).map SEv.newDetector ++
        ((startRoles n).take k).map SEv.spawn).all
      (fun e => !(isJoin e || isRelease e)) = true ∧
    (step s (Action.workerUnlock i false)).map
        (fun t => (t.halted, t.workers i, t.log)) =
      some (true, WPc.wCrash,
        s.log ++ [Ev.exitProcess ("unlock mutex error")]) ∧
    ((step s (Action.workerUnlock i false)).bind
        (fun t => step t (Action.workerDispatch i true))) = none := by
  refine ⟨?_, ?_, ?_, ?_, ?_, ?_⟩
  · simp [start]
  · simp [start]
  · have hsp := spawnThreads_error sf k (startRoles n) 0
      ((List.range n).map SEv.newDetector)
      (by rw [startRoles_length]; exact hk) (by simpa using hfk)
      (by intro j hj; simpa using hprev j hj)
    simp [start, hsp]
  · refine List.all_eq_true.mpr (fun e he => ?_)
    rcases List.mem_append.mp he with h1 | h1
    · obtain ⟨a, -, rfl⟩ := List.mem_map.mp h1
      rfl
    · obtain ⟨a, -, rfl⟩ := List.mem_map.mp h1
      rfl
  · simp [step, hh, hi, hpc, hmo]
  · simp [step, hh, hi, hpc, hmo]

/-- C8 witness: with one worker, a failing mutex initialization aborts
`_start` right after the detector allocation. -/
theorem C8_witness :
    start 1 true false (fun _ => true) =
      Except.error ((List.range 1).map SEv.newDetector, "Init mutex error") :=
  (C8_theorem 1 0 false (fun _ => true) unlockReadyState 0 (by decide) rfl
    (fun j hj => absurd hj (Nat.not_lt_zero j)) (by decide) rfl (by decide)
    rfl).1

end SkynetStart
